import Mathlib

/-!
Verification of the an-americano permission-API client (Go, fasthttp).

The development shallowly embeds the request-execution engine of
`client.go` (`doRequest`, the `Authenticator` strategies, `APIError`) and
the domain facade of `permissions.go` (validation and path construction).

External effects are modelled as oracle inputs:
  * `json.Marshal` of the request body is an `Except` value supplied by
    the environment (`DoReq.body`);
  * the wire transport is a function from the attempt index to the
    observed outcome (`DoReq.transport`), and `json.Unmarshal` of the
    response body into the `APIError` shape or into the result sink of
    the caller is carried as fields of the observed response body;
  * context cancellation during a backoff sleep is an oracle
    (`Ctx.doneAtSleep k` answers whether `ctx.Done()` fires before the
    timer of the sleep preceding attempt `k`).
Durations are abstract `Nat` time units (`retryDelay` in those units).
`maxRetries` is a `Nat`: the claims only concern non-negative budgets.
-/

/-- Structure `APIError` from `client.go`: the structured error-response
body. -/
structure APIError where
  timestamp : String
  status : Int
  errorType : String
  message : String
  path : String
  deriving DecidableEq

/-- Error values produced by the Go code: `errors.New` or `fmt.Errorf`
without `%w` (`simple`), `fmt.Errorf` with a `%w` cause (`wrapped`),
a decoded `*APIError` (`apiError`), and `ctx.Err()` (`ctxErr`). -/
inductive GoError where
  | simple (msg : String)
  | wrapped (msg : String) (cause : GoError)
  | apiError (e : APIError)
  | ctxErr
  deriving DecidableEq

/-- Model of `context.Context` as the client observes it: the value
stored under `tokenContextKey` (set by `WithToken`), and the cancellation
oracle for backoff sleeps. -/
structure Ctx where
  tokenVal : Option String
  doneAtSleep : Nat → Bool

/-- Model of `context.Background()`: no token value, never cancelled. -/
def Ctx.background : Ctx := ⟨none, fun _ => false⟩

/-- Function `WithToken` from `client.go`: attaches a token to the
context. -/
def WithToken (c : Ctx) (token : String) : Ctx :=
  { c with tokenVal := some token }

/-- The four `Authenticator` implementations of `client.go`:
`BearerTokenAuth`, `OAuthTokenAuth`, `DynamicTokenAuth` (holding a
`TokenProvider` and an injected context), `ContextTokenAuth`. -/
inductive Authenticator where
  | bearerTok (token : String)
  | oauthTok (accessToken : String)
  | dynamicTok (provider : Ctx → Except GoError String) (ctx : Option Ctx)
  | contextTok (ctx : Option Ctx)

/-- Method `AuthenticateFastHTTP` of each strategy.  On success the
returned string is the value written to the `Authorization` header; on
failure no header is written and the Go error is returned. -/
def Authenticator.authenticate : Authenticator → Except GoError String
  | .bearerTok t =>
      if t = "" then .error (.simple "bearer token is empty")
      else .ok ("Bearer " ++ t)
  | .oauthTok t =>
      if t = "" then .error (.simple "oauth access token is empty")
      else .ok ("Bearer " ++ t)
  | .dynamicTok p c =>
      match p (c.getD Ctx.background) with
      | .error e => .error (.wrapped "failed to get token" e)
      | .ok tok =>
          if tok = "" then .error (.simple "token is empty")
          else .ok ("Bearer " ++ tok)
  | .contextTok c =>
      match c with
      | none => .error (.simple "no context set")
      | some cx =>
          match cx.tokenVal with
          | some tok =>
              if tok = "" then .error (.simple "no token found in context")
              else .ok ("Bearer " ++ tok)
          | none => .error (.simple "no token found in context")

/-- The context-injection type switches at the top of `doRequest`
(`client.go` lines 238-243): the caller context is stored into a
`ContextTokenAuth` or `DynamicTokenAuth` before the retry loop. -/
def injectCtx (c : Ctx) : Authenticator → Authenticator
  | .contextTok _ => .contextTok (some c)
  | .dynamicTok p _ => .dynamicTok p (some c)
  | .bearerTok t => .bearerTok t
  | .oauthTok t => .oauthTok t

/-- A response body as the client observes it: the raw text, the outcome
of `json.Unmarshal` into `APIError`, and whether `json.Unmarshal` into
the result sink of the caller succeeds. -/
structure RespBody where
  text : String
  asApiError : Option APIError
  resultOk : Bool
  deriving DecidableEq

/-- One transport attempt as observed: a `DoTimeout` error, or a
response with status code and body. -/
inductive TransportOutcome where
  | netErr (msg : String)
  | resp (status : Int) (body : RespBody)
  deriving DecidableEq

/-- Input to one logical `doRequest` call.  `body = none` models a `nil`
body; `some m` models a non-nil body whose `json.Marshal` outcome is
`m`.  `wantResult` models `result != nil`. -/
structure DoReq where
  auth : Option Authenticator
  maxRetries : Nat
  retryDelay : Nat
  ctx : Ctx
  method : String
  path : String
  body : Option (Except GoError String)
  wantResult : Bool
  transport : Nat → TransportOutcome

/-- Observations of a single attempt: the completed backoff slept before
it, how many times `AuthenticateFastHTTP` was invoked, whether the
transport was invoked and with which attached body bytes, and the
authenticator value consulted. -/
structure AttemptRecord where
  sleptBefore : Option Nat
  stamps : Nat
  sent : Option (Option String)
  authUsed : Option Authenticator

/-- The authenticator in force during the retry loop: the client
authenticator after the context-injection switches ran. -/
def effAuth (inp : DoReq) : Option Authenticator :=
  inp.auth.map (injectCtx inp.ctx)

/-- The `jsonData` slice inside `doRequest`: `nil` when no body was
given (or when marshalling failed, in which case the loop is never
reached), else the marshalled bytes. -/
def jsonDataOf : Option (Except GoError String) → Option String
  | some (.ok s) => some s
  | some (.error _) => none
  | none => none

/-- Guard of `req.SetBody` (`client.go` line 287): the body is attached
to the outbound request only when `len(jsonData) > 0`. -/
def attachedBody : Option String → Option String
  | some s => if s.length > 0 then some s else none
  | none => none

/-- Response classification inside the per-attempt closure
(`client.go` lines 300-339), after the authentication step. -/
def transportPhase (wantResult : Bool) : TransportOutcome → Except GoError Unit
  | .netErr m => .error (.wrapped "request failed" (.simple m))
  | .resp st b =>
      if 200 ≤ st ∧ st < 300 then
        if wantResult ∧ b.text.length > 0 then
          if b.resultOk then .ok ()
          else .error (.wrapped "failed to unmarshal response"
            (.simple "invalid json in success body"))
        else .ok ()
      else
        match b.asApiError with
        | none => .error (.simple ("HTTP " ++ toString st ++ ": " ++ b.text))
        | some ae =>
            -- both branches of the 4xx/429 split return the decoded
            -- &apiErr; they differ only in what is logged
            if 400 ≤ st ∧ st < 500 ∧ st ≠ 429 then .error (.apiError ae)
            else .error (.apiError ae)

/-- The per-attempt anonymous closure of `doRequest`
(`client.go` lines 277-340): attach body, authenticate, send, classify. -/
def runAttempt (auth : Option Authenticator) (jd : Option String)
    (wantResult : Bool) (t : TransportOutcome) :
    Except GoError Unit × AttemptRecord :=
  let att := attachedBody jd
  match auth with
  | some a =>
      match a.authenticate with
      | .error e =>
          (.error (.wrapped "authentication failed" e),
           { sleptBefore := none, stamps := 1, sent := none, authUsed := auth })
      | .ok _hdr =>
          (transportPhase wantResult t,
           { sleptBefore := none, stamps := 1, sent := some att,
             authUsed := auth })
  | none =>
      (transportPhase wantResult t,
       { sleptBefore := none, stamps := 0, sent := some att, authUsed := none })

/-- The attempt numbered `k` of the call `inp`. -/
def attemptOutcome (inp : DoReq) (k : Nat) : Except GoError Unit × AttemptRecord :=
  runAttempt (effAuth inp) (jsonDataOf inp.body) inp.wantResult (inp.transport k)

/-- Closure result of attempt `k`. -/
def attemptErr (inp : DoReq) (k : Nat) : Except GoError Unit :=
  (attemptOutcome inp k).1

/-- The retry decision of the outer loop (`client.go` lines 346-360): a
decoded `*APIError` with status in `[400,500)` other than 429 is
terminal; every other error (including every non-`APIError`) is recorded
as `lastErr` and retried. -/
def isTerminal : GoError → Bool
  | .apiError a => decide (400 ≤ a.status ∧ a.status < 500 ∧ a.status ≠ 429)
  | .simple _ => false
  | .wrapped _ _ => false
  | .ctxErr => false

/-- The retry loop of `doRequest` (`client.go` lines 255-361), with the
attempt counter, the remaining iterations (`maxRetries + 1` at entry),
`lastErr`, and the reversed list of attempt records accumulated so far.
Falling out of the loop wraps `lastErr` in the retries-exhausted error
(`client.go` line 363). -/
def loopGo (inp : DoReq) :
    Nat → Nat → Option GoError → List AttemptRecord →
    Except GoError Unit × List AttemptRecord
  | _, 0, lastErr, acc =>
      (.error (.wrapped "max retries exceeded" (lastErr.getD (.simple "nil"))),
       acc.reverse)
  | attempt, r + 1, _lastErr, acc =>
      if 0 < attempt ∧ inp.ctx.doneAtSleep attempt = true then
        (.error .ctxErr, acc.reverse)
      else
        let out := attemptOutcome inp attempt
        let rcd := { out.2 with
          sleptBefore :=
            if 0 < attempt then some (inp.retryDelay * attempt) else none }
        match out.1 with
        | .ok _ => (.ok (), (rcd :: acc).reverse)
        | .error e =>
            if isTerminal e = true then (.error e, (rcd :: acc).reverse)
            else loopGo inp (attempt + 1) r (some e) (rcd :: acc)

/-- Constant `baseURL` from `client.go`. -/
def baseURL : String := "https://accounts.ana.st"

/-- Observable outcome of one `doRequest` call: the URL it targets, how
many times `json.Marshal` ran on the body, the returned error (or
success), and the per-attempt records in order. -/
structure RunOut where
  url : String
  marshals : Nat
  result : Except GoError Unit
  attempts : List AttemptRecord

/-- Function `doRequest` (`client.go` lines 233-364): build the URL,
inject the context into the authenticator, marshal the body once, then
run the retry loop. -/
def doRequestGo (inp : DoReq) : RunOut :=
  match inp.body with
  | some (.error e) =>
      { url := baseURL ++ inp.path, marshals := 1,
        result := .error (.wrapped "failed to marshal request body" e),
        attempts := [] }
  | some (.ok _) =>
      let run := loopGo inp 0 (inp.maxRetries + 1) none []
      { url := baseURL ++ inp.path, marshals := 1,
        result := run.1, attempts := run.2 }
  | none =>
      let run := loopGo inp 0 (inp.maxRetries + 1) none []
      { url := baseURL ++ inp.path, marshals := 0,
        result := run.1, attempts := run.2 }

/-- The record that attempt `a` contributes to the trace. -/
def rcdOf (inp : DoReq) (a : Nat) : AttemptRecord :=
  { (attemptOutcome inp a).2 with
    sleptBefore := if 0 < a then some (inp.retryDelay * a) else none }

/-- Predicate: `json.Marshal` of the body did not fail (vacuously true
for a nil body). -/
def marshalOk : Option (Except GoError String) → Bool
  | some (.error _) => false
  | some (.ok _) => true
  | none => true

/-- Predicate: the active authenticator stamps successfully (vacuously
true when the client has no authenticator). -/
def authOk : Option Authenticator → Bool
  | none => true
  | some a =>
      match a.authenticate with
      | .ok _ => true
      | .error _ => false

/-! ## Domain facade (`permissions.go`) -/

/-- Structure `PermissionCheckRequest` from `permissions.go`. -/
structure PermissionCheckRequest where
  subjectType : String
  subjectId : String
  relation : String
  objectNamespace : String
  objectId : String
  deriving DecidableEq

/-- Method `Validate` of `PermissionCheckRequest`: field checks in
source order. -/
def PermissionCheckRequest.validate (r : PermissionCheckRequest) : Option String :=
  if r.subjectType = "" then some "subjectType is required"
  else if r.subjectId = "" then some "subjectId is required"
  else if r.relation = "" then some "relation is required"
  else if r.objectNamespace = "" then some "objectNamespace is required"
  else if r.objectId = "" then some "objectId is required"
  else none

/-- Structure `PermissionWriteRequest` from `permissions.go`
(`subjectRelation` is optional). -/
structure PermissionWriteRequest where
  objectNamespace : String
  objectId : String
  relation : String
  subjectType : String
  subjectId : String
  subjectRelation : Option String
  deriving DecidableEq

/-- Method `Validate` of `PermissionWriteRequest`: field checks in
source order. -/
def PermissionWriteRequest.validate (r : PermissionWriteRequest) : Option String :=
  if r.objectNamespace = "" then some "objectNamespace is required"
  else if r.objectId = "" then some "objectId is required"
  else if r.relation = "" then some "relation is required"
  else if r.subjectType = "" then some "subjectType is required"
  else if r.subjectId = "" then some "subjectId is required"
  else none

/-- Structure `PermissionDeleteRequest` from `permissions.go`. -/
structure PermissionDeleteRequest where
  objectNamespace : String
  objectId : String
  relation : String
  subjectType : String
  subjectId : String
  deriving DecidableEq

/-- Method `Validate` of `PermissionDeleteRequest`: field checks in
source order. -/
def PermissionDeleteRequest.validate (r : PermissionDeleteRequest) : Option String :=
  if r.objectNamespace = "" then some "objectNamespace is required"
  else if r.objectId = "" then some "objectId is required"
  else if r.relation = "" then some "relation is required"
  else if r.subjectType = "" then some "subjectType is required"
  else if r.subjectId = "" then some "subjectId is required"
  else none

/-- What a facade method does up to the executor boundary: either it
returns a validation error before `doRequest` is ever called, or it
invokes `doRequest` with the given HTTP method and path. -/
inductive FacadeOutcome where
  | validationError (msg : String)
  | invoke (method : String) (path : String)
  deriving DecidableEq

/-- Answers whether the call stopped with a validation error, i.e. the
executor (and hence authenticator and transport) was never reached. -/
def FacadeOutcome.isValidation : FacadeOutcome → Bool
  | .validationError _ => true
  | .invoke _ _ => false

/-- Method `CheckPermission` (`permissions.go`): nil check, `Validate`,
then `doRequest(ctx, "POST", "/api/anamericano/check", req, &resp)`. -/
def CheckPermission : Option PermissionCheckRequest → FacadeOutcome
  | none => .validationError "permission check request is nil"
  | some r =>
      match r.validate with
      | some m => .validationError ("invalid request: " ++ m)
      | none => .invoke "POST" "/api/anamericano/check"

/-- Method `WritePermission`: nil check, `Validate`, then
`doRequest(ctx, "POST", "/api/anamericano/write", req, &perm)`. -/
def WritePermission : Option PermissionWriteRequest → FacadeOutcome
  | none => .validationError "permission write request is nil"
  | some r =>
      match r.validate with
      | some m => .validationError ("invalid request: " ++ m)
      | none => .invoke "POST" "/api/anamericano/write"

/-- Method `DeletePermission`: nil check, `Validate`, then
`doRequest(ctx, "DELETE", "/api/anamericano/delete", req, nil)`. -/
def DeletePermission : Option PermissionDeleteRequest → FacadeOutcome
  | none => .validationError "permission delete request is nil"
  | some r =>
      match r.validate with
      | some m => .validationError ("invalid request: " ++ m)
      | none => .invoke "DELETE" "/api/anamericano/delete"

/-- Method `ReadPermissions(ctx, namespace, objectID)`: empty-string
checks, then a GET of `/api/anamericano/read/` followed by the namespace
and the object id. -/
def ReadPermissions (ns objectID : String) : FacadeOutcome :=
  if ns = "" then .validationError "namespace is required"
  else if objectID = "" then .validationError "objectId is required"
  else .invoke "GET" ("/api/anamericano/read/" ++ ns ++ "/" ++ objectID)

/-- Method `ExpandPermissions(ctx, namespace, objectID, relation)`:
empty-string checks, then a GET of `/api/anamericano/expand/` followed
by the namespace, object id and relation. -/
def ExpandPermissions (ns objectID relation : String) : FacadeOutcome :=
  if ns = "" then .validationError "namespace is required"
  else if objectID = "" then .validationError "objectId is required"
  else if relation = "" then .validationError "relation is required"
  else .invoke "GET"
    ("/api/anamericano/expand/" ++ ns ++ "/" ++ objectID ++ "/" ++ relation)

/-- Method `ListObjects(ctx, subjectType, subjectID, relation, namespace)`:
empty-string checks, then a GET of `/api/anamericano/list/` followed by
the subject type, subject id, relation and namespace. -/
def ListObjects (subjectType subjectID relation ns : String) : FacadeOutcome :=
  if subjectType = "" then .validationError "subjectType is required"
  else if subjectID = "" then .validationError "subjectId is required"
  else if relation = "" then .validationError "relation is required"
  else if ns = "" then .validationError "namespace is required"
  else .invoke "GET"
    ("/api/anamericano/list/" ++ subjectType ++ "/" ++ subjectID ++ "/" ++
      relation ++ "/" ++ ns)

/-! ## Concrete calls used in evaluations and witnesses -/

/-- A call whose authenticator holds an empty bearer token: every stamp
fails. -/
def authFailCall : DoReq :=
  { auth := some (.bearerTok ""), maxRetries := 3, retryDelay := 1,
    ctx := ⟨none, fun _ => false⟩, method := "POST",
    path := "/api/anamericano/check", body := some (.ok "[1]"),
    wantResult := true,
    transport := fun _ => .resp 200 ⟨"", none, true⟩ }

/-- A call whose transport always answers 200 with a body the result
sink cannot decode. -/
def badSuccessBodyCall : DoReq :=
  { auth := some (.bearerTok "tok"), maxRetries := 3, retryDelay := 1,
    ctx := ⟨none, fun _ => false⟩, method := "GET",
    path := "/api/anamericano/read/document/doc1", body := none,
    wantResult := true,
    transport := fun _ => .resp 200 ⟨"garbage", none, false⟩ }

/-- A call whose transport always answers 404 with a body that does not
decode as an `APIError`. -/
def malformedErrorBodyCall : DoReq :=
  { auth := some (.bearerTok "tok"), maxRetries := 3, retryDelay := 1,
    ctx := ⟨none, fun _ => false⟩, method := "POST",
    path := "/api/anamericano/check", body := some (.ok "[1]"),
    wantResult := true,
    transport := fun _ => .resp 404 ⟨"oops", none, true⟩ }

/-- A decoded 404 service error. -/
def ae404 : APIError :=
  ⟨"2024-01-01T00:00:00Z", 404, "Not Found", "no such object",
    "/api/anamericano/check"⟩

/-- A call whose transport always answers 404 with a well-formed error
body. -/
def always404Call : DoReq :=
  { auth := some (.bearerTok "tok"), maxRetries := 3, retryDelay := 1,
    ctx := ⟨none, fun _ => false⟩, method := "POST",
    path := "/api/anamericano/check", body := some (.ok "[1]"),
    wantResult := true,
    transport := fun _ => .resp 404 ⟨"errbody", some ae404, true⟩ }

/-- A decoded 429 service error. -/
def ae429 : APIError :=
  ⟨"2024-01-01T00:00:00Z", 429, "Too Many Requests", "slow down", "/x"⟩

/-- A call whose transport always answers 429 with a well-formed error
body. -/
def always429Call : DoReq :=
  { auth := some (.bearerTok "tok"), maxRetries := 3, retryDelay := 1,
    ctx := ⟨none, fun _ => false⟩, method := "POST",
    path := "/api/anamericano/check", body := some (.ok "[1]"),
    wantResult := true,
    transport := fun _ => .resp 429 ⟨"errbody", some ae429, true⟩ }

/-- A decoded 500 service error. -/
def ae500 : APIError :=
  ⟨"2024-01-01T00:00:00Z", 500, "Internal Server Error", "boom", "/x"⟩

/-- A retried call whose context is cancelled during the backoff sleep
before attempt 2. -/
def cancelAtSecondSleep : DoReq :=
  { auth := some (.bearerTok "tok"), maxRetries := 3, retryDelay := 5,
    ctx := ⟨none, fun j => decide (j = 2)⟩, method := "POST",
    path := "/api/anamericano/check", body := some (.ok "[1]"),
    wantResult := true,
    transport := fun _ => .resp 500 ⟨"errbody", some ae500, true⟩ }

/-- A retried call whose context is never cancelled. -/
def neverCancelled : DoReq :=
  { auth := some (.bearerTok "tok"), maxRetries := 3, retryDelay := 5,
    ctx := ⟨none, fun _ => false⟩, method := "POST",
    path := "/api/anamericano/check", body := some (.ok "[1]"),
    wantResult := true,
    transport := fun _ => .resp 500 ⟨"errbody", some ae500, true⟩ }

/-- A call with a marshalled body that is retried twice. -/
def writeBodyCall : DoReq :=
  { auth := some (.bearerTok "tok"), maxRetries := 2, retryDelay := 1,
    ctx := ⟨none, fun _ => false⟩, method := "POST",
    path := "/api/anamericano/write", body := some (.ok "[1,2]"),
    wantResult := true,
    transport := fun _ => .resp 500 ⟨"errbody", some ae500, true⟩ }

/-- A call authenticated through `ContextTokenAuth` with a token-bearing
caller context. -/
def ctxTokenCall : DoReq :=
  { auth := some (.contextTok none), maxRetries := 1, retryDelay := 1,
    ctx := ⟨some "usertoken", fun _ => false⟩, method := "GET",
    path := "/api/anamericano/read/document/doc1", body := none,
    wantResult := false,
    transport := fun _ => .resp 200 ⟨"", none, true⟩ }

/-! ## Loop lemmas -/

theorem loopGo_cancel (inp : DoReq) (a r : Nat) (le : Option GoError)
    (acc : List AttemptRecord) (h1 : 0 < a)
    (h2 : inp.ctx.doneAtSleep a = true) :
    loopGo inp a (r + 1) le acc = (.error .ctxErr, acc.reverse) := by
  simp only [loopGo]
  rw [if_pos ⟨h1, h2⟩]

theorem loopGo_step (inp : DoReq) (a r : Nat) (le : Option GoError)
    (acc : List AttemptRecord)
    (hc : ¬(0 < a ∧ inp.ctx.doneAtSleep a = true)) :
    loopGo inp a (r + 1) le acc =
      match (attemptOutcome inp a).1 with
      | .ok _ => (.ok (), (rcdOf inp a :: acc).reverse)
      | .error e =>
          if isTerminal e = true then (.error e, (rcdOf inp a :: acc).reverse)
          else loopGo inp (a + 1) r (some e) (rcdOf inp a :: acc) := by
  simp only [loopGo, rcdOf]
  rw [if_neg hc]

theorem loopGo_step_retry (inp : DoReq) (a r : Nat) (le : Option GoError)
    (acc : List AttemptRecord) (e : GoError)
    (hc : ¬(0 < a ∧ inp.ctx.doneAtSleep a = true))
    (he : attemptErr inp a = .error e) (ht : isTerminal e = false) :
    loopGo inp a (r + 1) le acc =
      loopGo inp (a + 1) r (some e) (rcdOf inp a :: acc) := by
  rw [loopGo_step inp a r le acc hc]
  rw [attemptErr] at he
  rw [he]
  simp [ht]

theorem loopGo_step_terminal (inp : DoReq) (a r : Nat) (le : Option GoError)
    (acc : List AttemptRecord) (e : GoError)
    (hc : ¬(0 < a ∧ inp.ctx.doneAtSleep a = true))
    (he : attemptErr inp a = .error e) (ht : isTerminal e = true) :
    loopGo inp a (r + 1) le acc = (.error e, (rcdOf inp a :: acc).reverse) := by
  rw [loopGo_step inp a r le acc hc]
  rw [attemptErr] at he
  rw [he]
  simp [ht]

theorem loopGo_trace_extends (inp : DoReq) :
    ∀ (r a : Nat) (le : Option GoError) (acc : List AttemptRecord),
      ∃ rest, (loopGo inp a r le acc).2 = acc.reverse ++ rest := by
  intro r
  induction r with
  | zero =>
      intro a le acc
      exact ⟨[], by simp [loopGo]⟩
  | succ n ih =>
      intro a le acc
      by_cases hc : 0 < a ∧ inp.ctx.doneAtSleep a = true
      · exact ⟨[], by rw [loopGo_cancel inp a n le acc hc.1 hc.2]; simp⟩
      · rw [loopGo_step inp a n le acc hc]
        rcases h : (attemptOutcome inp a).1 with e | u
        case _ =>
          by_cases ht : isTerminal e = true
          · exact ⟨[rcdOf inp a], by simp [ht]⟩
          · obtain ⟨rest, hrest⟩ := ih (a + 1) (some e) (rcdOf inp a :: acc)
            refine ⟨rcdOf inp a :: rest, ?_⟩
            simp only [eq_false_of_ne_true ht]
            simp only [if_false, Bool.false_eq_true]
            simp at hrest
            simp [hrest]
        case _ => exact ⟨[rcdOf inp a], by simp⟩

theorem loopGo_const_retry (inp : DoReq) (e : GoError)
    (he : ∀ k, attemptErr inp k = .error e) (ht : isTerminal e = false)
    (hnc : ∀ k, inp.ctx.doneAtSleep k = false) :
    ∀ (n a : Nat) (le : Option GoError) (acc : List AttemptRecord),
      (loopGo inp a (n + 1) le acc).1 =
          .error (.wrapped "max retries exceeded" e) ∧
      (loopGo inp a (n + 1) le acc).2.length = acc.length + (n + 1) := by
  intro n
  induction n with
  | zero =>
      intro a le acc
      have hc : ¬(0 < a ∧ inp.ctx.doneAtSleep a = true) := by
        rintro ⟨-, h2⟩
        rw [hnc a] at h2
        exact Bool.false_ne_true h2
      rw [loopGo_step_retry inp a 0 le acc e hc (he a) ht]
      constructor
      · simp [loopGo]
      · simp [loopGo]
  | succ m ih =>
      intro a le acc
      have hc : ¬(0 < a ∧ inp.ctx.doneAtSleep a = true) := by
        rintro ⟨-, h2⟩
        rw [hnc a] at h2
        exact Bool.false_ne_true h2
      rw [loopGo_step_retry inp a (m + 1) le acc e hc (he a) ht]
      obtain ⟨h1, h2⟩ := ih (a + 1) (some e) (rcdOf inp a :: acc)
      refine ⟨h1, ?_⟩
      rw [h2]
      simp
      omega

theorem loopGo_advance (inp : DoReq) :
    ∀ (m a r : Nat) (le : Option GoError) (acc : List AttemptRecord),
      (∀ j, a ≤ j → j < a + m →
        ∃ e, attemptErr inp j = .error e ∧ isTerminal e = false) →
      (∀ j, 0 < j → a ≤ j → j < a + m → inp.ctx.doneAtSleep j = false) →
      ∃ le' acc', loopGo inp a (m + r) le acc = loopGo inp (a + m) r le' acc' ∧
        acc'.length = acc.length + m := by
  intro m
  induction m with
  | zero =>
      intro a r le acc _ _
      exact ⟨le, acc, by simp, by simp⟩
  | succ m ih =>
      intro a r le acc hret hnc
      obtain ⟨e, he, hte⟩ := hret a (Nat.le_refl a) (by omega)
      have hc : ¬(0 < a ∧ inp.ctx.doneAtSleep a = true) := by
        rintro ⟨h1, h2⟩
        rw [hnc a h1 (Nat.le_refl a) (by omega)] at h2
        exact Bool.false_ne_true h2
      have hstep : loopGo inp a (m + 1 + r) le acc =
          loopGo inp (a + 1) (m + r) (some e) (rcdOf inp a :: acc) := by
        have harith : m + 1 + r = (m + r) + 1 := by omega
        rw [harith]
        exact loopGo_step_retry inp a (m + r) le acc e hc he hte
      obtain ⟨le', acc', hrun, hlen⟩ :=
        ih (a + 1) r (some e) (rcdOf inp a :: acc)
          (fun j hj1 hj2 => hret j (by omega) (by omega))
          (fun j hj0 hj1 hj2 => hnc j hj0 (by omega) (by omega))
      refine ⟨le', acc', ?_, ?_⟩
      · rw [hstep, hrun]
        congr 1
        omega
      · rw [hlen]
        simp
        omega

theorem loopGo_records (inp : DoReq) (P : AttemptRecord → Prop)
    (hP : ∀ a, P (rcdOf inp a)) :
    ∀ (r a : Nat) (le : Option GoError) (acc : List AttemptRecord),
      (∀ x ∈ acc, P x) → ∀ x ∈ (loopGo inp a r le acc).2, P x := by
  intro r
  induction r with
  | zero =>
      intro a le acc hacc x hx
      simp [loopGo] at hx
      exact hacc x hx
  | succ n ih =>
      intro a le acc hacc x hx
      by_cases hc : 0 < a ∧ inp.ctx.doneAtSleep a = true
      · rw [loopGo_cancel inp a n le acc hc.1 hc.2] at hx
        simp at hx
        exact hacc x hx
      · rw [loopGo_step inp a n le acc hc] at hx
        rcases h : (attemptOutcome inp a).1 with e | u
        case _ =>
          rw [h] at hx
          by_cases ht : isTerminal e = true
          · simp [ht] at hx
            rcases hx with hx | hx <;>
              first
              | exact hacc x hx
              | (subst hx; exact hP a)
          · simp [eq_false_of_ne_true ht] at hx
            refine ih (a + 1) (some e) (rcdOf inp a :: acc) ?_ x hx
            intro y hy
            rcases List.mem_cons.mp hy with h1 | h1
            · subst h1; exact hP a
            · exact hacc y h1
        case _ =>
          rw [h] at hx
          simp at hx
          rcases hx with hx | hx <;>
            first
            | exact hacc x hx
            | (subst hx; exact hP a)

/-! ## Run-level lemmas -/

theorem doRequestGo_run (inp : DoReq) (hm : marshalOk inp.body = true) :
    (doRequestGo inp).result = (loopGo inp 0 (inp.maxRetries + 1) none []).1 ∧
    (doRequestGo inp).attempts = (loopGo inp 0 (inp.maxRetries + 1) none []).2 := by
  rcases hb : inp.body with - | x
  · simp [doRequestGo, hb]
  · rcases x with e | s
    · rw [hb] at hm
      simp [marshalOk] at hm
    · simp [doRequestGo, hb]

theorem attemptErr_of_authOk (inp : DoReq) (k : Nat)
    (hA : authOk (effAuth inp) = true) :
    attemptErr inp k = transportPhase inp.wantResult (inp.transport k) := by
  rcases ha : effAuth inp with - | a
  · simp [attemptErr, attemptOutcome, runAttempt, ha]
  · rw [ha] at hA
    simp only [authOk] at hA
    rcases hauth : a.authenticate with e | s
    · rw [hauth] at hA
      simp at hA
    · simp [attemptErr, attemptOutcome, runAttempt, ha, hauth]

theorem transportPhase_apiError (wr : Bool) (st : Int) (b : RespBody)
    (ae : APIError) (h2xx : ¬(200 ≤ st ∧ st < 300))
    (hae : b.asApiError = some ae) :
    transportPhase wr (.resp st b) = .error (.apiError ae) := by
  simp [transportPhase, h2xx, hae]

theorem isTerminal_apiError_true (ae : APIError) (h1 : 400 ≤ ae.status)
    (h2 : ae.status < 500) (h3 : ae.status ≠ 429) :
    isTerminal (.apiError ae) = true := by
  simp [isTerminal]
  exact ⟨h1, h2, h3⟩

theorem rcdOf_sent (inp : DoReq) (a : Nat) :
    (rcdOf inp a).sent = none ∨
    (rcdOf inp a).sent = some (attachedBody (jsonDataOf inp.body)) := by
  rcases ha : effAuth inp with - | au
  · right
    simp [rcdOf, attemptOutcome, runAttempt, ha]
  · rcases hauth : au.authenticate with e | s
    · left
      simp [rcdOf, attemptOutcome, runAttempt, ha, hauth]
    · right
      simp [rcdOf, attemptOutcome, runAttempt, ha, hauth]

theorem rcdOf_stamps (inp : DoReq) (a0 : Authenticator)
    (hauth : inp.auth = some a0) (a : Nat) :
    (rcdOf inp a).stamps = 1 ∧
    (rcdOf inp a).authUsed = some (injectCtx inp.ctx a0) := by
  have ha : effAuth inp = some (injectCtx inp.ctx a0) := by
    simp [effAuth, hauth]
  rcases hh : (injectCtx inp.ctx a0).authenticate with e | s
  · constructor <;> simp [rcdOf, attemptOutcome, runAttempt, ha, hh]
  · constructor <;> simp [rcdOf, attemptOutcome, runAttempt, ha, hh]

theorem doRequestGo_records (inp : DoReq) (P : AttemptRecord → Prop)
    (hP : ∀ a, P (rcdOf inp a)) :
    ∀ x ∈ (doRequestGo inp).attempts, P x := by
  rcases hb : inp.body with - | x
  · intro y hy
    simp only [doRequestGo, hb] at hy
    exact loopGo_records inp P hP (inp.maxRetries + 1) 0 none [] (by simp) y hy
  · rcases x with e | s
    · intro y hy
      simp [doRequestGo, hb] at hy
    · intro y hy
      simp only [doRequestGo, hb] at hy
      exact loopGo_records inp P hP (inp.maxRetries + 1) 0 none [] (by simp) y hy

/-! ## Claim theorems -/

/-- C1: evaluation showing the claim fails on the code as written.  The
spec states that an authentication failure (here an empty bearer token)
is fatal immediately, is never retried, and is never recorded as a
retryable last error nor wrapped in a retry-exhaustion error.  On the
code, the per-attempt closure returns a non-`APIError` error for a
failed stamp, which the outer loop classifies as retryable: with
`maxRetries = 3` all four attempts stamp (and fail), the transport is
never invoked, and the call ends with the retries-exhausted wrapper
around the authentication error. -/
theorem c1_auth_error_retried_not_fatal :
    (doRequestGo authFailCall).result =
      .error (.wrapped "max retries exceeded"
        (.wrapped "authentication failed" (.simple "bearer token is empty"))) ∧
    (doRequestGo authFailCall).attempts.length = 4 ∧
    ∀ x ∈ (doRequestGo authFailCall).attempts, x.sent = none ∧ x.stamps = 1 := by
  refine ⟨?_, ?_, ?_⟩
  · rfl
  · rfl
  · decide

/-- C2: a logical call whose transport answers a non-2xx status with an
error body that decodes to a `ServiceError` carrying a status in
`[400,500)` other than 429 makes exactly one attempt and returns that
decoded `APIError` itself as the error. -/
theorem c2_client_error_single_attempt (inp : DoReq) (st : Int)
    (b : RespBody) (ae : APIError)
    (hm : marshalOk inp.body = true)
    (hA : authOk (effAuth inp) = true)
    (htr : ∀ k, inp.transport k = .resp st b)
    (h2xx : ¬(200 ≤ st ∧ st < 300))
    (hae : b.asApiError = some ae)
    (hs1 : 400 ≤ ae.status) (hs2 : ae.status < 500) (hs3 : ae.status ≠ 429) :
    (doRequestGo inp).result = .error (.apiError ae) ∧
    (doRequestGo inp).attempts.length = 1 := by
  obtain ⟨hres, hatt⟩ := doRequestGo_run inp hm
  have he : attemptErr inp 0 = .error (.apiError ae) := by
    rw [attemptErr_of_authOk inp 0 hA, htr 0]
    exact transportPhase_apiError inp.wantResult st b ae h2xx hae
  have hterm := isTerminal_apiError_true ae hs1 hs2 hs3
  have hc : ¬(0 < 0 ∧ inp.ctx.doneAtSleep 0 = true) := by simp
  have hstep := loopGo_step_terminal inp 0 inp.maxRetries none [] (.apiError ae)
    hc he hterm
  rw [hres, hatt, hstep]
  simp

/-- C2 witness: a transport that always answers 404 with a well-formed
error body yields exactly one attempt and the decoded 404 error. -/
theorem c2_client_error_single_attempt_witness :
    (doRequestGo always404Call).result = .error (.apiError ae404) ∧
    (doRequestGo always404Call).attempts.length = 1 :=
  c2_client_error_single_attempt always404Call 404
    ⟨"errbody", some ae404, true⟩ ae404
    rfl rfl (fun _ => rfl) (by decide) rfl (by decide) (by decide) (by decide)

/-- C3: a logical call whose transport always answers 429 (or a 5xx)
with a well-formed error body makes exactly `maxRetries + 1` attempts
and then returns the retries-exhausted wrapper carrying the last decoded
`ServiceError` as its wrapped cause. -/
theorem c3_retries_exhausted_wraps_last (inp : DoReq) (st : Int)
    (b : RespBody) (ae : APIError)
    (hm : marshalOk inp.body = true)
    (hA : authOk (effAuth inp) = true)
    (htr : ∀ k, inp.transport k = .resp st b)
    (hae : b.asApiError = some ae)
    (hwf : ae.status = st)
    (hst : st = 429 ∨ (500 ≤ st ∧ st < 600))
    (hnc : ∀ k, inp.ctx.doneAtSleep k = false) :
    (doRequestGo inp).result =
        .error (.wrapped "max retries exceeded" (.apiError ae)) ∧
    (doRequestGo inp).attempts.length = inp.maxRetries + 1 := by
  obtain ⟨hres, hatt⟩ := doRequestGo_run inp hm
  have h2xx : ¬(200 ≤ st ∧ st < 300) := by omega
  have he : ∀ k, attemptErr inp k = .error (.apiError ae) := by
    intro k
    rw [attemptErr_of_authOk inp k hA, htr k]
    exact transportPhase_apiError inp.wantResult st b ae h2xx hae
  have hterm : isTerminal (.apiError ae) = false := by
    simp [isTerminal]
    intro g1 g2
    omega
  obtain ⟨h1, h2⟩ := loopGo_const_retry inp (.apiError ae) he hterm hnc
    inp.maxRetries 0 none []
  rw [hres, hatt]
  exact ⟨h1, by rw [h2]; simp⟩

/-- C3 witness: a transport that always answers 429 with a well-formed
error body under `maxRetries = 3` makes four attempts and returns the
retries-exhausted wrapper around the decoded 429 error. -/
theorem c3_retries_exhausted_wraps_last_witness :
    (doRequestGo always429Call).result =
      .error (.wrapped "max retries exceeded" (.apiError ae429)) ∧
    (doRequestGo always429Call).attempts.length = 4 :=
  c3_retries_exhausted_wraps_last always429Call 429
    ⟨"errbody", some ae429, true⟩ ae429 rfl rfl (fun _ => rfl) rfl rfl
    (Or.inl rfl) (fun _ => rfl)

/-- C4: evaluation showing the claim fails on the code as written.  The
spec states that a failure to deserialize a 2xx success body is fatal
and never retried.  On the code, the closure returns a non-`APIError`
wrapped unmarshal error, which the outer loop classifies as retryable:
with `maxRetries = 3` the call makes all four attempts and ends with
the retries-exhausted wrapper around the unmarshal error. -/
theorem c4_success_unmarshal_error_retried :
    (doRequestGo badSuccessBodyCall).result =
      .error (.wrapped "max retries exceeded"
        (.wrapped "failed to unmarshal response"
          (.simple "invalid json in success body"))) ∧
    (doRequestGo badSuccessBodyCall).attempts.length = 4 := by
  constructor
  · rfl
  · rfl

/-- C5: evaluation showing the claim fails on the code as written.  The
spec states that a non-2xx response whose body does not decode as the
structured error JSON returns the generic raw-status error immediately
with no retry.  On the code, that generic error is a non-`APIError`
error, which the outer loop classifies as retryable: with
`maxRetries = 3` the call makes all four attempts and ends with the
retries-exhausted wrapper around the generic error. -/
theorem c5_malformed_error_body_retried :
    (doRequestGo malformedErrorBodyCall).result =
      .error (.wrapped "max retries exceeded" (.simple "HTTP 404: oops")) ∧
    (doRequestGo malformedErrorBodyCall).attempts.length = 4 := by
  constructor
  · rfl
  · rfl

/-- C6: for every attempt number `k > 0` that is reached (all earlier
attempts failed retryably and no earlier sleep was cancelled), the
backoff slept before attempt `k` is `retryDelay * k` (linear backoff),
and if the caller context is cancelled during that sleep the call
returns the context error itself with exactly `k` attempts made and no
further attempt. -/
theorem c6_linear_backoff_and_cancellation (inp : DoReq) (k : Nat)
    (hm : marshalOk inp.body = true)
    (hk1 : 1 ≤ k) (hk2 : k ≤ inp.maxRetries)
    (hret : ∀ j, j < k →
      ∃ e, attemptErr inp j = .error e ∧ isTerminal e = false)
    (hnc : ∀ j, 0 < j → j < k → inp.ctx.doneAtSleep j = false) :
    (inp.ctx.doneAtSleep k = true →
      (doRequestGo inp).result = .error .ctxErr ∧
      (doRequestGo inp).attempts.length = k) ∧
    (inp.ctx.doneAtSleep k = false →
      ((doRequestGo inp).attempts[k]?).map (fun r => r.sleptBefore) =
        some (some (inp.retryDelay * k))) := by
  obtain ⟨hres, hatt⟩ := doRequestGo_run inp hm
  obtain ⟨le', acc', hrun, hlen⟩ :=
    loopGo_advance inp k 0 (inp.maxRetries + 1 - k) none []
      (fun j hj1 hj2 => hret j (by omega))
      (fun j hj0 hj1 hj2 => hnc j hj0 (by omega))
  have hrem : k + (inp.maxRetries + 1 - k) = inp.maxRetries + 1 := by omega
  rw [hrem] at hrun
  simp only [Nat.zero_add] at hrun
  simp at hlen
  obtain ⟨r', hr'⟩ : ∃ r', inp.maxRetries + 1 - k = r' + 1 :=
    ⟨inp.maxRetries - k, by omega⟩
  rw [hr'] at hrun
  constructor
  · intro hdone
    rw [hres, hatt, hrun, loopGo_cancel inp k r' le' acc' (by omega) hdone]
    simp [hlen]
  · intro hndone
    rw [hatt, hrun]
    have hc : ¬(0 < k ∧ inp.ctx.doneAtSleep k = true) := by
      rintro ⟨-, h2⟩
      rw [hndone] at h2
      exact Bool.false_ne_true h2
    have hshape : ∃ rest, (loopGo inp k (r' + 1) le' acc').2 =
        acc'.reverse ++ rcdOf inp k :: rest := by
      rw [loopGo_step inp k r' le' acc' hc]
      rcases h : (attemptOutcome inp k).1 with e | u
      case _ =>
        by_cases ht : isTerminal e = true
        · exact ⟨[], by simp [ht]⟩
        · simp only [eq_false_of_ne_true ht]
          simp only [if_false, Bool.false_eq_true]
          obtain ⟨rest, hrest⟩ :=
            loopGo_trace_extends inp r' (k + 1) (some e) (rcdOf inp k :: acc')
          refine ⟨rest, ?_⟩
          simp at hrest
          simp [hrest]
      case _ => exact ⟨[], by simp⟩
    obtain ⟨rest, hrest⟩ := hshape
    rw [hrest]
    have hklen : acc'.reverse.length = k := by simp [hlen]
    have hidx : (acc'.reverse ++ rcdOf inp k :: rest)[k]? =
        some (rcdOf inp k) := by
      rw [List.getElem?_append_right (by omega : acc'.reverse.length ≤ k)]
      have h0 : k - acc'.reverse.length = 0 := by omega
      rw [h0]
      simp
    rw [hidx]
    have hk0 : 0 < k := hk1
    simp [rcdOf, hk0]

/-- C6 witness: with `retryDelay = 5` and every attempt failing with a
retryable 500, cancellation during the sleep before attempt 2 returns
the context error after exactly two attempts, and without cancellation
the completed backoff before attempt 2 is `5 * 2 = 10`. -/
theorem c6_linear_backoff_and_cancellation_witness :
    ((doRequestGo cancelAtSecondSleep).result = .error .ctxErr ∧
      (doRequestGo cancelAtSecondSleep).attempts.length = 2) ∧
    ((doRequestGo neverCancelled).attempts[2]?).map (fun r => r.sleptBefore) =
      some (some 10) := by
  constructor
  · exact (c6_linear_backoff_and_cancellation cancelAtSecondSleep 2 rfl
      (by decide) (by decide)
      (fun j hj => ⟨.apiError ae500, rfl, rfl⟩)
      (fun j h1 h2 => by
        have hj : j = 1 := by omega
        subst hj
        rfl)).1 rfl
  · exact (c6_linear_backoff_and_cancellation neverCancelled 2 rfl
      (by decide) (by decide)
      (fun j hj => ⟨.apiError ae500, rfl, rfl⟩)
      (fun j h1 h2 => rfl)).2 rfl

/-- C7: a call with a non-nil body whose marshalling succeeds runs
`json.Marshal` exactly once (before the retry loop, by construction of
`doRequestGo`), and every attempt that reaches the transport sends the
same attached bytes, so the bytes sent on any later attempt are
byte-identical to those of attempt 1. -/
theorem c7_body_marshalled_once_and_stable (inp : DoReq) (s : String)
    (hb : inp.body = some (.ok s)) :
    (doRequestGo inp).marshals = 1 ∧
    ∀ x ∈ (doRequestGo inp).attempts,
      x.sent = none ∨ x.sent = some (attachedBody (some s)) := by
  constructor
  · simp [doRequestGo, hb]
  · have hjd : jsonDataOf inp.body = some s := by simp [jsonDataOf, hb]
    exact doRequestGo_records inp
      (fun x => x.sent = none ∨ x.sent = some (attachedBody (some s)))
      (fun a => by
        rcases rcdOf_sent inp a with h | h
        · exact Or.inl h
        · right
          rw [h, hjd])

/-- C7 witness: a retried call with marshalled body bytes marshals once
and attaches the same bytes on every attempt that sends. -/
theorem c7_body_marshalled_once_and_stable_witness :
    (doRequestGo writeBodyCall).marshals = 1 ∧
    ∀ x ∈ (doRequestGo writeBodyCall).attempts,
      x.sent = none ∨ x.sent = some (attachedBody (some "[1,2]")) :=
  c7_body_marshalled_once_and_stable writeBodyCall "[1,2]" rfl

/-- C8: on every attempt of every logical call with a configured
authenticator, the stamp operation is invoked exactly once and the
authenticator consulted is the single context-injected one; for the
`ContextTokenAuth` and `DynamicTokenAuth` variants the injection stores
the request-scoped caller context, which therefore is in place before
any attempt uses the authenticator. -/
theorem c8_one_authenticator_per_attempt (inp : DoReq) (a0 : Authenticator)
    (hauth : inp.auth = some a0) :
    (∀ x ∈ (doRequestGo inp).attempts,
        x.stamps = 1 ∧ x.authUsed = some (injectCtx inp.ctx a0)) ∧
    (∀ c, injectCtx inp.ctx (.contextTok c) = .contextTok (some inp.ctx)) ∧
    (∀ p c, injectCtx inp.ctx (.dynamicTok p c) =
      .dynamicTok p (some inp.ctx)) := by
  refine ⟨?_, fun c => rfl, fun p c => rfl⟩
  exact doRequestGo_records inp
    (fun x => x.stamps = 1 ∧ x.authUsed = some (injectCtx inp.ctx a0))
    (rcdOf_stamps inp a0 hauth)

/-- C8 witness: a `ContextTokenAuth` call stamps exactly once per
attempt with the context-injected authenticator, and the injection
stores the caller context. -/
theorem c8_one_authenticator_per_attempt_witness :
    (∀ x ∈ (doRequestGo ctxTokenCall).attempts,
      x.stamps = 1 ∧
      x.authUsed = some (injectCtx ⟨some "usertoken", fun _ => false⟩
        (.contextTok none))) ∧
    injectCtx ⟨some "usertoken", fun _ => false⟩ (.contextTok none) =
      .contextTok (some ⟨some "usertoken", fun _ => false⟩) := by
  have h := c8_one_authenticator_per_attempt ctxTokenCall (.contextTok none) rfl
  exact ⟨h.1, h.2.1 none⟩

/-- C9 counterexample: the code posts the check operation to
`/api/anamericano/check`, not to `/api/permissions/check` as the claim
states, so the claimed path table is false on the code. -/
theorem c9_path_counterexample :
    CheckPermission
        (some ⟨"user", "hanul", "viewer", "document", "doc1"⟩) =
      .invoke "POST" "/api/anamericano/check" ∧
    "/api/anamericano/check" ≠ "/api/permissions/check" := by
  constructor
  · rfl
  · decide

/-- C9 amended: each domain operation issues its request against the
path pattern of the interface table with prefix `/api/anamericano`
instead of `/api/permissions`: check POSTs `/api/anamericano/check`,
write POSTs `/api/anamericano/write`, delete DELETEs
`/api/anamericano/delete`, read GETs
`/api/anamericano/read/` with namespace and object id, expand GETs
`/api/anamericano/expand/` with namespace, object id and relation,
list-objects GETs `/api/anamericano/list/` with subject type, subject
id, relation and namespace; and `doRequest` appends every path to the
fixed base URL. -/
theorem c9_paths_amended :
    (∀ r : PermissionCheckRequest, r.validate = none →
      CheckPermission (some r) = .invoke "POST" "/api/anamericano/check") ∧
    (∀ r : PermissionWriteRequest, r.validate = none →
      WritePermission (some r) = .invoke "POST" "/api/anamericano/write") ∧
    (∀ r : PermissionDeleteRequest, r.validate = none →
      DeletePermission (some r) = .invoke "DELETE" "/api/anamericano/delete") ∧
    (∀ ns oid : String, ns ≠ "" → oid ≠ "" →
      ReadPermissions ns oid =
        .invoke "GET" ("/api/anamericano/read/" ++ ns ++ "/" ++ oid)) ∧
    (∀ ns oid rel : String, ns ≠ "" → oid ≠ "" → rel ≠ "" →
      ExpandPermissions ns oid rel =
        .invoke "GET"
          ("/api/anamericano/expand/" ++ ns ++ "/" ++ oid ++ "/" ++ rel)) ∧
    (∀ st sid rel ns : String, st ≠ "" → sid ≠ "" → rel ≠ "" → ns ≠ "" →
      ListObjects st sid rel ns =
        .invoke "GET"
          ("/api/anamericano/list/" ++ st ++ "/" ++ sid ++ "/" ++ rel ++
            "/" ++ ns)) ∧
    (∀ inp : DoReq, (doRequestGo inp).url = baseURL ++ inp.path) := by
  refine ⟨?_, ?_, ?_, ?_, ?_, ?_, ?_⟩
  · intro r hv
    simp [CheckPermission, hv]
  · intro r hv
    simp [WritePermission, hv]
  · intro r hv
    simp [DeletePermission, hv]
  · intro ns oid h1 h2
    simp [ReadPermissions, h1, h2]
  · intro ns oid rel h1 h2 h3
    simp [ExpandPermissions, h1, h2, h3]
  · intro st sid rel ns h1 h2 h3 h4
    simp [ListObjects, h1, h2, h3, h4]
  · intro inp
    rcases hb : inp.body with - | x
    · simp [doRequestGo, hb]
    · rcases x with e | s
      · simp [doRequestGo, hb]
      · simp [doRequestGo, hb]

/-- C9 amended witness: concrete valid inputs produce exactly the
`/api/anamericano` paths, and a concrete call targets the base URL plus
its path. -/
theorem c9_paths_amended_witness :
    CheckPermission (some ⟨"user", "u1", "viewer", "document", "d1"⟩) =
      .invoke "POST" "/api/anamericano/check" ∧
    WritePermission (some ⟨"document", "d1", "viewer", "user", "u1", none⟩) =
      .invoke "POST" "/api/anamericano/write" ∧
    DeletePermission (some ⟨"document", "d1", "viewer", "user", "u1"⟩) =
      .invoke "DELETE" "/api/anamericano/delete" ∧
    ReadPermissions "document" "d1" =
      .invoke "GET" "/api/anamericano/read/document/d1" ∧
    ExpandPermissions "document" "d1" "viewer" =
      .invoke "GET" "/api/anamericano/expand/document/d1/viewer" ∧
    ListObjects "user" "u1" "viewer" "document" =
      .invoke "GET" "/api/anamericano/list/user/u1/viewer/document" ∧
    (doRequestGo writeBodyCall).url = baseURL ++ "/api/anamericano/write" := by
  have h := c9_paths_amended
  refine ⟨h.1 _ rfl, h.2.1 _ rfl, h.2.2.1 _ rfl, ?_, ?_, ?_,
    h.2.2.2.2.2.2 writeBodyCall⟩
  · exact h.2.2.2.1 "document" "d1" (by decide) (by decide)
  · exact h.2.2.2.2.1 "document" "d1" "viewer" (by decide) (by decide)
      (by decide)
  · exact h.2.2.2.2.2.1 "user" "u1" "viewer" "document" (by decide)
      (by decide) (by decide) (by decide)

/-- C10: for each facade operation, a nil request or any empty required
field makes the call stop with a validation error before the executor is
reached, so no authenticator is consulted and no transport attempt is
made (the `invoke` constructor is the only way to reach `doRequest`). -/
theorem c10_validation_before_network :
    ((CheckPermission none).isValidation = true ∧
      ∀ r : PermissionCheckRequest,
        (r.subjectType = "" ∨ r.subjectId = "" ∨ r.relation = "" ∨
          r.objectNamespace = "" ∨ r.objectId = "") →
        (CheckPermission (some r)).isValidation = true) ∧
    ((WritePermission none).isValidation = true ∧
      ∀ r : PermissionWriteRequest,
        (r.objectNamespace = "" ∨ r.objectId = "" ∨ r.relation = "" ∨
          r.subjectType = "" ∨ r.subjectId = "") →
        (WritePermission (some r)).isValidation = true) ∧
    ((DeletePermission none).isValidation = true ∧
      ∀ r : PermissionDeleteRequest,
        (r.objectNamespace = "" ∨ r.objectId = "" ∨ r.relation = "" ∨
          r.subjectType = "" ∨ r.subjectId = "") →
        (DeletePermission (some r)).isValidation = true) ∧
    (∀ ns oid : String, (ns = "" ∨ oid = "") →
      (ReadPermissions ns oid).isValidation = true) ∧
    (∀ ns oid rel : String, (ns = "" ∨ oid = "" ∨ rel = "") →
      (ExpandPermissions ns oid rel).isValidation = true) ∧
    (∀ st sid rel ns : String, (st = "" ∨ sid = "" ∨ rel = "" ∨ ns = "") →
      (ListObjects st sid rel ns).isValidation = true) := by
  refine ⟨⟨rfl, ?_⟩, ⟨rfl, ?_⟩, ⟨rfl, ?_⟩, ?_, ?_, ?_⟩
  · intro r h
    simp only [CheckPermission]
    rcases hv : r.validate with - | m
    · unfold PermissionCheckRequest.validate at hv
      split_ifs at hv
      all_goals simp_all
    · simp [FacadeOutcome.isValidation]
  · intro r h
    simp only [WritePermission]
    rcases hv : r.validate with - | m
    · unfold PermissionWriteRequest.validate at hv
      split_ifs at hv
      all_goals simp_all
    · simp [FacadeOutcome.isValidation]
  · intro r h
    simp only [DeletePermission]
    rcases hv : r.validate with - | m
    · unfold PermissionDeleteRequest.validate at hv
      split_ifs at hv
      all_goals simp_all
    · simp [FacadeOutcome.isValidation]
  · intro ns oid h
    unfold ReadPermissions
    split_ifs
    all_goals simp_all [FacadeOutcome.isValidation]
  · intro ns oid rel h
    unfold ExpandPermissions
    split_ifs
    all_goals simp_all [FacadeOutcome.isValidation]
  · intro st sid rel ns h
    unfold ListObjects
    split_ifs
    all_goals simp_all [FacadeOutcome.isValidation]

/-- C10 witness: one concrete empty-field input per facade operation
stops with a validation error before the executor. -/
theorem c10_validation_before_network_witness :
    (CheckPermission (some ⟨"", "s", "r", "n", "o"⟩)).isValidation = true ∧
    (WritePermission (some ⟨"", "o", "r", "s", "i", none⟩)).isValidation = true ∧
    (DeletePermission (some ⟨"", "o", "r", "s", "i"⟩)).isValidation = true ∧
    (ReadPermissions "" "o").isValidation = true ∧
    (ExpandPermissions "n" "" "r").isValidation = true ∧
    (ListObjects "s" "i" "" "n").isValidation = true := by
  have h := c10_validation_before_network
  exact ⟨h.1.2 _ (Or.inl rfl), h.2.1.2 _ (Or.inl rfl),
    h.2.2.1.2 _ (Or.inl rfl), h.2.2.2.1 _ _ (Or.inl rfl),
    h.2.2.2.2.1 _ _ _ (Or.inr (Or.inl rfl)),
    h.2.2.2.2.2 _ _ _ _ (Or.inr (Or.inr (Or.inl rfl)))⟩
